import Mathlib

/-! # Math-solver front end (`src/app.js`): embedding and verified properties

The script wires a query field, a Solve button and a Clear button to one
`fetch` call and a result panel.  The embedding has three layers:

* the values `resp.json()` can deliver (`JSON`), with the JavaScript
  operations the handlers apply to them: property read, truthiness,
  string conversion and `JSON.stringify`;
* the page state the handlers read and write (`UIState`) and the effects
  they raise (`Effect`);
* the two click handlers.  The Solve handler is `async`: it runs up to the
  `await` (`submitStart`), is suspended, and is resumed with the outcome of
  `postSolve` (`submitSettle`).

A number is carried by the decimal form `Number::toString` prints from
(sign, shortest digit string, decimal exponent), with the two zeros and the
two infinities `JSON.parse` can deliver; the printing rules of ECMAScript
are applied to that form, so integers, fractions and exponent forms are all
covered.  Strings are sequences of Unicode scalar values.
-/

namespace MathSolver

/-! ## Values delivered by `resp.json()` -/

/-- A number as `JSON.parse` delivers it.  A finite number other than zero
is given by the decimal form `Number::toString` works from: its sign, the
digits `s` (a positive integer with no trailing zero, so that their count `k`
is least) and the exponent `n`, the magnitude being `s × 10^(n - k)`.
`JSON.parse` delivers both zeros (`0`, `-0`) and, from an overflowing
literal such as `1e999`, an infinity; it never delivers `NaN`. -/
inductive Number where
  | zero (negative : Bool)
  | finite (negative : Bool) (s : Nat) (n : Int)
  | infinite (negative : Bool)
  deriving DecidableEq, Repr

/-- A value produced by `JSON.parse`.  An object lists its own properties
in enumeration order. -/
inductive JSON where
  | null
  | bool (b : Bool)
  | num (x : Number)
  | str (s : String)
  | arr (xs : List JSON)
  | obj (kvs : List (String × JSON))

/-- Own-property lookup in a property list (first match). -/
def lookup (k : String) : List (String × JSON) → Option JSON
  | [] => none
  | (k', v) :: rest => if k' = k then some v else lookup k rest

/-- Property read `v.k` for one of the names `ok`, `mode`, `result`,
`error`.  Reading a property of `null` throws a `TypeError` (outer `none`).
Every other value is coerced to an object; primitives, arrays and their
prototypes carry none of the four names, so the read gives `undefined`
(inner `none`) unless `v` is an object that owns the property. -/
def getProp (v : JSON) (k : String) : Option (Option JSON) :=
  match v with
  | .null => none
  | .obj kvs => some (lookup k kvs)
  | _ => some none

/-- Truthiness (`ToBoolean`) of a parsed value. -/
def truthy : JSON → Bool
  | .null => false
  | .bool b => b
  | .num (.zero _) => false
  | .num _ => true
  | .str s => s != ""
  | .arr _ => true
  | .obj _ => true

/-- Truthiness of the result of a property read; `undefined` is falsy. -/
def truthyOpt : Option JSON → Bool
  | none => false
  | some v => truthy v

/-- The text `Number::toString` gives a positive finite number with digits
`s` and exponent `n` (steps 6 to 10 of the algorithm, `k` the digit count):
the digits padded with zeros when `k ≤ n ≤ 21`, a decimal point inside the
digits when `0 < n ≤ 21`, `0.` and leading zeros when `-6 < n ≤ 0`, and
otherwise the exponent form with `e`, the sign of `n - 1` and its magnitude. -/
def positiveToString (s : Nat) (n : Int) : String :=
  let ds := Nat.toDigits 10 s
  let k : Int := ds.length
  if k ≤ n ∧ n ≤ 21 then
    String.mk (ds ++ List.replicate (n - k).toNat (Char.ofNat 48))
  else if 0 < n ∧ n ≤ 21 then
    String.mk (ds.take n.toNat ++ Char.ofNat 46 :: ds.drop n.toNat)
  else if -6 < n ∧ n ≤ 0 then
    String.mk (Char.ofNat 48 :: Char.ofNat 46 :: (List.replicate (-n).toNat (Char.ofNat 48) ++ ds))
  else
    String.mk (ds.take 1 ++ (if ds.length = 1 then [] else Char.ofNat 46 :: ds.drop 1)
      ++ Char.ofNat 101 :: (if n - 1 < 0 then Char.ofNat 45 else Char.ofNat 43)
      :: Nat.toDigits 10 (n - 1).natAbs)

/-- Text of a number (`Number::toString`): both zeros print `0`, a negative
number prints `-` and its magnitude, an infinity prints `Infinity`. -/
def numToString : Number → String
  | .zero _ => "0"
  | .finite negative s n => (if negative then "-" else "") ++ positiveToString s n
  | .infinite negative => if negative then "-Infinity" else "Infinity"

/-- Serialization of a number by `JSON.stringify`: `null` for a number that
is not finite, its text otherwise. -/
def numToJSON : Number → String
  | .infinite _ => "null"
  | x => numToString x

mutual
/-- String conversion (`ToString`), as applied by a template literal and by
the `textContent` setter.  An array is joined with commas, `null` elements
giving the empty text.  An object without an own `toString` property gives
`[object Object]`; one that owns `toString` (never callable in parsed JSON)
makes the conversion throw a `TypeError` (`none`). -/
def toStr : JSON → Option String
  | .null => some "null"
  | .bool b => some (if b then "true" else "false")
  | .num x => some (numToString x)
  | .str s => some s
  | .arr xs => (joinElems xs).map (String.intercalate ",")
  | .obj kvs => if (lookup "toString" kvs).isSome then none else some "[object Object]"
/-- The texts `Array.prototype.join` concatenates, element by element. -/
def joinElems : List JSON → Option (List String)
  | [] => some []
  | x :: xs =>
    match (match x with | .null => some "" | y => toStr y), joinElems xs with
    | some s, some ss => some (s :: ss)
    | _, _ => none
end

/-! ## `JSON.stringify` -/

/-- One lower-case hexadecimal digit. -/
def hexDigit (n : Nat) : Char :=
  if n < 10 then Char.ofNat (48 + n) else Char.ofNat (87 + n)

/-- Escape of one character inside a JSON string (`QuoteJSONString`). -/
def quoteChar (c : Char) : List Char :=
  let n := c.toNat
  if n = 34 then [Char.ofNat 92, Char.ofNat 34]
  else if n = 92 then [Char.ofNat 92, Char.ofNat 92]
  else if n = 8 then [Char.ofNat 92, Char.ofNat 98]
  else if n = 12 then [Char.ofNat 92, Char.ofNat 102]
  else if n = 10 then [Char.ofNat 92, Char.ofNat 110]
  else if n = 13 then [Char.ofNat 92, Char.ofNat 114]
  else if n = 9 then [Char.ofNat 92, Char.ofNat 116]
  else if n < 32 then
    [Char.ofNat 92, Char.ofNat 117, Char.ofNat 48, Char.ofNat 48, hexDigit (n / 16), hexDigit (n % 16)]
  else [c]

/-- The quoted form of a string (`QuoteJSONString`). -/
def quote (s : String) : String :=
  String.mk (Char.ofNat 34 :: (s.data.flatMap quoteChar ++ [Char.ofNat 34]))

/-! ### Reading a string literal back

The grammar of a JSON string (RFC 8259, section 7), used to state that the
quoted form of a string is a literal that denotes it. -/

/-- State of a scan through the characters of a JSON string literal after
its opening quote. -/
inductive Scan where
  | text (out : List Char)
  | escape (out : List Char)
  | hex (out : List Char) (value count : Nat)
  | closed (out : List Char)
  | bad
  deriving DecidableEq, Repr

/-- Value of a hexadecimal digit. -/
def hexValue (c : Char) : Option Nat :=
  let n := c.toNat
  if 48 ≤ n ∧ n ≤ 57 then some (n - 48)
  else if 97 ≤ n ∧ n ≤ 102 then some (n - 87)
  else if 65 ≤ n ∧ n ≤ 70 then some (n - 55)
  else none

/-- The character a two-character escape denotes, by the character after
the backslash. -/
def escapeValue (c : Char) : Option Char :=
  let n := c.toNat
  if n = 34 then some (Char.ofNat 34)
  else if n = 92 then some (Char.ofNat 92)
  else if n = 47 then some (Char.ofNat 47)
  else if n = 98 then some (Char.ofNat 8)
  else if n = 102 then some (Char.ofNat 12)
  else if n = 110 then some (Char.ofNat 10)
  else if n = 114 then some (Char.ofNat 13)
  else if n = 116 then some (Char.ofNat 9)
  else none

/-- One step of the scan. -/
def scanStep : Scan → Char → Scan
  | .text out, c =>
    if c.toNat = 34 then .closed out
    else if c.toNat = 92 then .escape out
    else if c.toNat < 32 then .bad
    else .text (out ++ [c])
  | .escape out, c =>
    if c.toNat = 117 then .hex out 0 0
    else
      match escapeValue c with
      | some d => .text (out ++ [d])
      | none => .bad
  | .hex out value count, c =>
    match hexValue c with
    | none => .bad
    | some d =>
      if count = 3 then
        if (16 * value + d).isValidChar then .text (out ++ [Char.ofNat (16 * value + d)]) else .bad
      else .hex out (16 * value + d) (count + 1)
  | .closed _, _ => .bad
  | .bad, _ => .bad

/-- The string a JSON string literal denotes. -/
def jsonStringValue (s : String) : Option String :=
  match s.data with
  | [] => none
  | q :: rest =>
    if q.toNat = 34 then
      match rest.foldl scanStep (.text []) with
      | .closed out => some (String.mk out)
      | _ => none
    else none

/-- Final text of an object or array from its serialized members
(`SerializeJSONObject` / `SerializeJSONArray`): `stepback` is the
indentation outside, `indent` the indentation of the members. -/
def wrap (opening closing gap stepback indent : String) (parts : List String) : String :=
  if parts.isEmpty then opening ++ closing
  else if gap = "" then opening ++ String.intercalate "," parts ++ closing
  else
    opening ++ "\n" ++ indent ++ String.intercalate (",\n" ++ indent) parts
      ++ "\n" ++ stepback ++ closing

mutual
/-- Serialization of a value (`SerializeJSONProperty`) with indentation unit
`gap` at current indentation `indent`. -/
def serialize (gap indent : String) : JSON → String
  | .null => "null"
  | .bool b => if b then "true" else "false"
  | .num x => numToJSON x
  | .str s => quote s
  | .arr xs => wrap "[" "]" gap indent (indent ++ gap) (serializeElems gap (indent ++ gap) xs)
  | .obj kvs =>
    wrap "\x7b" "\x7d" gap indent (indent ++ gap) (serializeProps gap (indent ++ gap) kvs)
/-- Serialized elements of an array. -/
def serializeElems (gap indent : String) : List JSON → List String
  | [] => []
  | x :: xs => serialize gap indent x :: serializeElems gap indent xs
/-- Serialized members of an object: quoted key, colon, a blank when
indenting, value. -/
def serializeProps (gap indent : String) : List (String × JSON) → List String
  | [] => []
  | (k, v) :: rest =>
    (quote k ++ ":" ++ (if gap = "" then "" else " ") ++ serialize gap indent v)
      :: serializeProps gap indent rest
end

/-- The call `JSON.stringify(v)`: no indentation. -/
def stringify (v : JSON) : String := serialize "" "" v

/-- The call `JSON.stringify(v, null, 2)`: two-space indentation. -/
def stringifyPretty (v : JSON) : String := serialize "  " "" v

/-! ## `String.prototype.trim` -/

/-- The characters `trim` strips: the `WhiteSpace` and `LineTerminator`
code points of ECMAScript. -/
def isWhiteSpace (c : Char) : Bool :=
  let n := c.toNat
  n = 9 || n = 10 || n = 11 || n = 12 || n = 13 || n = 32 || n = 160 || n = 5760
    || (8192 ≤ n && n ≤ 8202) || n = 8232 || n = 8233 || n = 8239 || n = 8287
    || n = 12288 || n = 65279

/-- Removal of leading and trailing white space from a character list. -/
def trimChars (cs : List Char) : List Char :=
  ((cs.dropWhile isWhiteSpace).reverse.dropWhile isWhiteSpace).reverse

/-- The call `s.trim()`. -/
def trim (s : String) : String := String.mk (trimChars s.data)

/-! ## Page state and effects -/

/-- The parts of the page the two handlers read or write. -/
structure UIState where
  /-- The text of the query field, `qEl.value`. -/
  query : String
  /-- The flag `solveBtn.disabled`. -/
  solveDisabled : Bool
  /-- The label `solveBtn.textContent`. -/
  solveLabel : String
  /-- Whether the class list of `resultBlock` holds `hidden`. -/
  resultHidden : Bool
  /-- The text `resultText.textContent`. -/
  resultText : String
  deriving DecidableEq, Repr

/-- The argument pair of a `fetch` call. -/
structure Request where
  url : String
  method : String
  headers : List (String × String)
  body : String
  deriving DecidableEq, Repr

/-- An observable action of a handler other than a write to the page. -/
inductive Effect where
  | alert (msg : String)
  | fetch (req : Request)
  deriving DecidableEq, Repr

/-- The request `postSolve(query)` passes to `fetch`; the body is
`JSON.stringify` of the object with the single property `query`. -/
def postSolveRequest (query : String) : Request :=
  { url := "/api/solve"
    method := "POST"
    headers := [("Content-Type", "application/json")]
    body := stringify (.obj [("query", .str query)]) }

/-- How `await postSolve(q)` resumes the handler: with the parsed body, or
with an exception (rejected `fetch`, body that is not JSON) whose `message`
is given. -/
inductive Outcome where
  | parsed (res : JSON)
  | failed (message : String)

/-- The `message` of the two `TypeError`s the engine can raise while the
handler inspects a response; the wording is the engine's own. -/
structure Host where
  /-- Message for a property read on `null`. -/
  nullReadMessage : String
  /-- Message for an object that cannot be converted to a string. -/
  toPrimitiveMessage : String

/-- How a block of statements ends: normally, or by an exception with the
given `message`; either way with the page state reached. -/
inductive Completion where
  | normal (ui : UIState)
  | thrown (message : String) (ui : UIState)
  deriving DecidableEq, Repr

/-- The page state a completion carries. -/
def Completion.state : Completion → UIState
  | .normal ui => ui
  | .thrown _ ui => ui

/-- The statement `try body catch(err) handler finally fin`: the handler
runs on an exception of the body, the finalizer runs last on every path and
an exception of its own replaces a pending one. -/
def tryCatchFinally (body : Completion) (handler : String → UIState → Completion)
    (fin : UIState → Completion) : Completion :=
  let caught :=
    match body with
    | .normal ui => Completion.normal ui
    | .thrown m ui => handler m ui
  match caught with
  | .normal ui => fin ui
  | .thrown m ui =>
    match fin ui with
    | .normal ui2 => .thrown m ui2
    | .thrown m2 ui2 => .thrown m2 ui2

/-! ## The Solve handler -/

/-- What a handler has done when it returns or first yields: the page
state, the effects raised, and, for a handler suspended at `await`, the
query in flight. -/
structure Activation where
  ui : UIState
  effects : List Effect
  pending : Option String
  deriving DecidableEq, Repr

/-- The synchronous part of the Solve handler: trim the field, alert and
return on an empty query, else disable the button, relabel it and issue the
request of `postSolve(q)`. -/
def submitStart (ui : UIState) : Activation :=
  let q := trim ui.query
  if q = "" then
    { ui := ui, effects := [.alert "Please type a math problem"], pending := none }
  else
    { ui := { ui with solveDisabled := true, solveLabel := "Solving..." }
      effects := [.fetch (postSolveRequest q)]
      pending := some q }

/-- The value of `res.k` once `res` is known not to be `null`; `none` is
`undefined`. -/
def field (res : JSON) (k : String) : Option JSON := (getProp res k).join

/-- The mode line of the `res.ok` branch: the template literal when
`res.mode` is truthy, nothing otherwise.  The literal throws (`none`) when
`res.mode` cannot be converted to a string. -/
def modeLine (mode : Option JSON) : Option String :=
  match mode with
  | some m => if truthy m then (toStr m).map (fun s => "Mode: " ++ s ++ "\n\n") else some ""
  | none => some ""

/-- The payload of the `res.ok` branch: the pretty-printed `res.result`
when that is truthy, the pretty-printed `res` otherwise. -/
def payloadText (res : JSON) (result : Option JSON) : String :=
  match result with
  | some r => if truthy r then stringifyPretty r else stringifyPretty res
  | none => stringifyPretty res

/-- The text the `res.ok` branch builds in `out`. -/
def okText (res : JSON) : Option String :=
  (modeLine (field res "mode")).map (fun h => h ++ payloadText res (field res "result"))

/-- The text the other branch assigns: `res.error || JSON.stringify(res)`,
converted by the `textContent` setter (`none` when that throws). -/
def errorText (res : JSON) : Option String :=
  match field res "error" with
  | some e => if truthy e then toStr e else some (stringify res)
  | none => some (stringify res)

/-- The `try` block after `await` has delivered its outcome.  Every
exception arises before the first write to the page, so a thrown completion
carries the entry state. -/
def tryBody (host : Host) (o : Outcome) (ui : UIState) : Completion :=
  match o with
  | .failed m => .thrown m ui
  | .parsed res =>
    match getProp res "ok" with
    | none => .thrown host.nullReadMessage ui
    | some ok =>
      match (if truthyOpt ok then okText res else errorText res) with
      | none => .thrown host.toPrimitiveMessage ui
      | some t => .normal { ui with resultText := t, resultHidden := false }

/-- The `catch` block. -/
def catchBlock (message : String) (ui : UIState) : Completion :=
  .normal { ui with resultText := "Error: " ++ message, resultHidden := false }

/-- The `finally` block. -/
def finallyBlock (ui : UIState) : Completion :=
  .normal { ui with solveDisabled := false, solveLabel := "Solve" }

/-- The Solve handler from the point where `await postSolve(q)` resumes it
with outcome `o`, on the page state `ui` found at that moment.  No statement
of this part raises an alert or a request, so it carries no effect list. -/
def submitSettle (host : Host) (o : Outcome) (ui : UIState) : Completion :=
  tryCatchFinally (tryBody host o ui) catchBlock finallyBlock

/-! ## The Clear handler -/

/-- The Clear handler: empty the field, hide the panel, empty its text.
It raises no effect and never yields. -/
def clear (ui : UIState) : Activation :=
  { ui := { ui with query := "", resultHidden := true, resultText := "" }
    effects := []
    pending := none }

/-! ## Sample values used at concrete inputs -/

/-- A page as first loaded, with a query typed between blanks. -/
def samplePage : UIState :=
  { query := "  2+2 \n", solveDisabled := false, solveLabel := "Solve",
    resultHidden := true, resultText := "" }

/-- A page showing an earlier answer, with only white space in the field. -/
def blankPage : UIState :=
  { query := " \t\n ", solveDisabled := false, solveLabel := "Solve",
    resultHidden := false, resultText := "4" }

/-- A page whose query holds a quotation mark and a backslash. -/
def quotedPage : UIState :=
  { query := " say \"a\\b\" \t", solveDisabled := false, solveLabel := "Solve",
    resultHidden := true, resultText := "" }

/-- An engine with fixed exception messages. -/
def sampleHost : Host :=
  { nullReadMessage := "res is null"
    toPrimitiveMessage := "Cannot convert object to primitive value" }

/-- The number `1`: digit string `1`, exponent `1`. -/
def one : Number := .finite false 1 1

/-- The number `2`. -/
def two : Number := .finite false 2 1

/-- The number `4`. -/
def four : Number := .finite false 4 1

/-- The number `5`. -/
def five : Number := .finite false 5 1

/-- The number `0.25`: digit string `25`, exponent `0`. -/
def quarter : Number := .finite false 25 0

/-- The number `1e21`: digit string `1`, exponent `22`. -/
def sextillion : Number := .finite false 1 22

/-- The response `{"ok": true, "mode": "algebra", "result": {"x": 2}}`. -/
def algebraResponse : JSON :=
  .obj [("ok", .bool true), ("mode", .str "algebra"), ("result", .obj [("x", .num two)])]

/-- The response `{"ok": true, "result": 5}`. -/
def plainResponse : JSON := .obj [("ok", .bool true), ("result", .num five)]

/-- The response `{"ok": true, "result": 0}`: a `result` field that is falsy. -/
def zeroResponse : JSON := .obj [("ok", .bool true), ("result", .num (.zero false))]

/-- The response `{"ok": true, "mode": "", "result": 5}`: a `mode` field that
is falsy. -/
def emptyModeResponse : JSON :=
  .obj [("ok", .bool true), ("mode", .str ""), ("result", .num five)]

/-- The response `{"ok": false, "error": "parse error"}`. -/
def parseErrorResponse : JSON := .obj [("ok", .bool false), ("error", .str "parse error")]

/-- The response `{"ok": false}`. -/
def bareFailureResponse : JSON := .obj [("ok", .bool false)]

/-- The response `{"ok": false, "error": ""}`: an `error` field that is
falsy. -/
def emptyErrorResponse : JSON := .obj [("ok", .bool false), ("error", .str "")]

/-- The response `{"ok": true, "mode": {"toString": 1}}`: a `mode` that has
no string conversion. -/
def opaqueModeResponse : JSON :=
  .obj [("ok", .bool true), ("mode", .obj [("toString", .num one)])]

/-- The response `{"ok": true, "error": {"toString": 1}}`: an `error` with
no string conversion on a response whose `ok` is truthy. -/
def unreadErrorResponse : JSON :=
  .obj [("ok", .bool true), ("error", .obj [("toString", .num one)])]

/-- The response `{"ok": true, "mode": 1e21, "result": 0.25}`. -/
def largeModeResponse : JSON :=
  .obj [("ok", .bool true), ("mode", .num sextillion), ("result", .num quarter)]

/-- The response `[1, "a"]`: a value with none of the four fields. -/
def listResponse : JSON := .arr [.num one, .str "a"]

/-! ## Auxiliary facts -/

theorem trimChars_of_all_whiteSpace (cs : List Char)
    (h : ∀ c ∈ cs, isWhiteSpace c = true) : trimChars cs = [] := by
  have h1 : cs.dropWhile isWhiteSpace = [] := List.dropWhile_eq_nil_iff.mpr h
  simp [trimChars, h1]

theorem trim_of_all_whiteSpace (s : String)
    (h : ∀ c ∈ s.data, isWhiteSpace c = true) : trim s = "" := by
  simp [trim, trimChars_of_all_whiteSpace s.data h]

theorem submitSettle_failed (host : Host) (m : String) (ui : UIState) :
    submitSettle host (.failed m) ui =
      .normal { ui with resultText := "Error: " ++ m, resultHidden := false,
                        solveDisabled := false, solveLabel := "Solve" } := by
  simp [submitSettle, tryBody, tryCatchFinally, catchBlock, finallyBlock]

/-- The `try` block either throws on the entry state or writes a text and
shows the panel. -/
theorem tryBody_cases (host : Host) (o : Outcome) (ui : UIState) :
    (∃ m, tryBody host o ui = .thrown m ui) ∨
      (∃ t, tryBody host o ui = .normal { ui with resultText := t, resultHidden := false }) := by
  cases o with
  | failed m => exact Or.inl ⟨m, rfl⟩
  | parsed res =>
    cases hk : getProp res "ok" with
    | none => exact Or.inl ⟨host.nullReadMessage, by simp only [tryBody, hk]⟩
    | some ok =>
      cases ht : (if truthyOpt ok then okText res else errorText res) with
      | none => exact Or.inl ⟨host.toPrimitiveMessage, by simp only [tryBody, hk, ht]⟩
      | some t => exact Or.inr ⟨t, by simp only [tryBody, hk, ht]⟩

theorem submitSettle_of_thrown (host : Host) (o : Outcome) (ui ui2 : UIState) (m : String)
    (h : tryBody host o ui = .thrown m ui2) :
    submitSettle host o ui =
      .normal { ui2 with resultText := "Error: " ++ m, resultHidden := false,
                         solveDisabled := false, solveLabel := "Solve" } := by
  simp [submitSettle, h, tryCatchFinally, catchBlock, finallyBlock]

theorem submitSettle_of_normal (host : Host) (o : Outcome) (ui ui2 : UIState)
    (h : tryBody host o ui = .normal ui2) :
    submitSettle host o ui =
      .normal { ui2 with solveDisabled := false, solveLabel := "Solve" } := by
  simp [submitSettle, h, tryCatchFinally, finallyBlock]

/-- Whatever the outcome, the handler ends normally with the panel shown,
the button enabled and labelled `Solve`, and the field untouched. -/
theorem submitSettle_normal (host : Host) (o : Outcome) (ui : UIState) :
    ∃ t, submitSettle host o ui =
      .normal { ui with resultText := t, resultHidden := false,
                        solveDisabled := false, solveLabel := "Solve" } := by
  rcases tryBody_cases host o ui with ⟨m, h⟩ | ⟨t, h⟩
  · exact ⟨_, submitSettle_of_thrown host o ui ui m h⟩
  · exact ⟨t, submitSettle_of_normal host o ui _ h⟩

theorem clear_iterate_button (n : Nat) (ui : UIState) :
    ((fun s => (clear s).ui)^[n] ui).solveDisabled = ui.solveDisabled ∧
      ((fun s => (clear s).ui)^[n] ui).solveLabel = ui.solveLabel := by
  induction n with
  | zero => exact ⟨rfl, rfl⟩
  | succ k ih =>
    rw [Function.iterate_succ_apply']
    exact ih

theorem stringify_query (q : String) :
    stringify (.obj [("query", .str q)]) = "\x7b\"query\":" ++ quote q ++ "\x7d" := by
  have hq : quote "query" = "\"query\"" := by decide
  simp [stringify, serialize, serializeProps, wrap, hq, String.intercalate,
    String.intercalate.go]
  rfl

theorem getProp_of_ne_null (res : JSON) (k : String) (h : res ≠ .null) :
    getProp res k = some (field res k) := by
  cases res <;> simp [getProp, field] at h ⊢

theorem ne_null_of_field_truthy (res : JSON) (k : String)
    (h : truthyOpt (field res k) = true) : res ≠ .null := by
  intro e
  subst e
  simp [field, getProp, truthyOpt] at h

theorem tryBody_ok_branch (host : Host) (ui : UIState) (res : JSON)
    (hok : truthyOpt (field res "ok") = true) :
    tryBody host (.parsed res) ui =
      match okText res with
      | none => .thrown host.toPrimitiveMessage ui
      | some t => .normal { ui with resultText := t, resultHidden := false } := by
  simp only [tryBody, getProp_of_ne_null res "ok" (ne_null_of_field_truthy res "ok" hok), hok,
    if_true]

theorem tryBody_error_branch (host : Host) (ui : UIState) (res : JSON)
    (hnn : res ≠ .null) (hok : truthyOpt (field res "ok") = false) :
    tryBody host (.parsed res) ui =
      match errorText res with
      | none => .thrown host.toPrimitiveMessage ui
      | some t => .normal { ui with resultText := t, resultHidden := false } := by
  simp [tryBody, getProp_of_ne_null res "ok" hnn, hok]

theorem digitChar_ne_upper_m (d : Nat) : Nat.digitChar d ≠ Char.ofNat 77 := by
  by_cases hd : d < 16
  · interval_cases d <;> decide
  · have e : Nat.digitChar d = Char.ofNat 42 := by
      unfold Nat.digitChar
      simp only [show d ≠ 0 by omega, show d ≠ 1 by omega, show d ≠ 2 by omega,
        show d ≠ 3 by omega, show d ≠ 4 by omega, show d ≠ 5 by omega, show d ≠ 6 by omega,
        show d ≠ 7 by omega, show d ≠ 8 by omega, show d ≠ 9 by omega, show d ≠ 10 by omega,
        show d ≠ 11 by omega, show d ≠ 12 by omega, show d ≠ 13 by omega,
        show d ≠ 14 by omega, show d ≠ 15 by omega, if_false]
    rw [e]
    decide

theorem toDigitsCore_head (fuel : Nat) : ∀ (n : Nat) (acc : List Char),
    (∀ c ∈ acc, c ≠ Char.ofNat 77) → ∀ c ∈ Nat.toDigitsCore 10 fuel n acc, c ≠ Char.ofNat 77 := by
  induction fuel with
  | zero => intro n acc h; simpa [Nat.toDigitsCore] using h
  | succ f ih =>
    intro n acc h
    simp only [Nat.toDigitsCore]
    have h2 : ∀ c ∈ Nat.digitChar (n % 10) :: acc, c ≠ Char.ofNat 77 := by
      intro c hc
      rcases List.mem_cons.mp hc with e | e
      · rw [e]; exact digitChar_ne_upper_m _
      · exact h c e
    split
    · exact h2
    · exact ih _ _ h2

theorem toDigitsCore_ne_nil (fuel : Nat) : ∀ (n : Nat) (acc : List Char),
    acc ≠ [] → Nat.toDigitsCore 10 fuel n acc ≠ [] := by
  induction fuel with
  | zero => intro n acc h; simpa [Nat.toDigitsCore] using h
  | succ f ih =>
    intro n acc _
    simp only [Nat.toDigitsCore]
    split
    · simp
    · exact ih _ _ (by simp)

theorem toDigits_chars (s : Nat) : ∀ c ∈ Nat.toDigits 10 s, c ≠ Char.ofNat 77 :=
  toDigitsCore_head (s + 1) s [] (by simp)

theorem toDigits_ne_nil (s : Nat) : Nat.toDigits 10 s ≠ [] := by
  unfold Nat.toDigits
  simp only [Nat.toDigitsCore]
  split
  · simp
  · exact toDigitsCore_ne_nil _ _ _ (by simp)

theorem head_of_head? (l : List Char) (c : Char) (h : l.head? = some c) :
    ∃ rest, l = c :: rest := by
  cases l with
  | nil => simp at h
  | cons a rest => exact ⟨rest, by simp at h; rw [h]⟩

/-- The text of a positive finite number starts with a character other
than `M`. -/
theorem positiveToString_head (s : Nat) (n : Int) :
    ∃ c rest, (positiveToString s n).data = c :: rest ∧ c ≠ Char.ofNat 77 := by
  have hall := toDigits_chars s
  cases hd : Nat.toDigits 10 s with
  | nil => exact absurd hd (toDigits_ne_nil s)
  | cons d ds =>
    have hdne : d ≠ Char.ofNat 77 := hall d (by simp [hd])
    have hz : Char.ofNat 48 ≠ Char.ofNat 77 := by decide
    have key : (positiveToString s n).data.head? = some d ∨
        (positiveToString s n).data.head? = some (Char.ofNat 48) := by
      unfold positiveToString
      simp only [hd]
      split_ifs with h1 h2 h3
      · exact Or.inl rfl
      · obtain ⟨m, hm⟩ : ∃ m, n.toNat = m + 1 := ⟨n.toNat - 1, by omega⟩
        exact Or.inl (by simp [hm])
      · exact Or.inr rfl
      · exact Or.inl (by simp)
      · exact Or.inl (by simp)
      · exact Or.inl (by simp)
      · exact Or.inl (by simp)
    rcases key with h | h
    · obtain ⟨rest, hr⟩ := head_of_head? _ _ h
      exact ⟨d, rest, hr, hdne⟩
    · obtain ⟨rest, hr⟩ := head_of_head? _ _ h
      exact ⟨_, rest, hr, hz⟩

/-- The serialized form of a number starts with a character other than
`M`. -/
theorem numToJSON_head (x : Number) :
    ∃ c rest, (numToJSON x).data = c :: rest ∧ c ≠ Char.ofNat 77 := by
  cases x with
  | zero negative => exact ⟨Char.ofNat 48, [], rfl, by decide⟩
  | infinite negative => exact ⟨Char.ofNat 110, _, rfl, by decide⟩
  | finite negative s n =>
    cases negative with
    | true => exact ⟨Char.ofNat 45, (positiveToString s n).data, rfl, by decide⟩
    | false =>
      obtain ⟨c, rest, h, hc⟩ := positiveToString_head s n
      exact ⟨c, rest, by simpa [numToJSON, numToString] using h, hc⟩

theorem wrap_head (opening closing gap stepback indent : String) (parts : List String)
    (c : Char) (rest : List Char) (h : opening.data = c :: rest) :
    ∃ rest2, (wrap opening closing gap stepback indent parts).data = c :: rest2 := by
  unfold wrap
  split_ifs <;> simp [String.data_append, h]

/-- Serialized JSON starts with a character other than `M`. -/
theorem serialize_head (gap indent : String) (v : JSON) :
    ∃ c rest, (serialize gap indent v).data = c :: rest ∧ c ≠ Char.ofNat 77 := by
  cases v with
  | null => exact ⟨Char.ofNat 110, _, rfl, by decide⟩
  | bool b => cases b <;> simp [serialize]
  | num x => simpa [serialize] using numToJSON_head x
  | str s => exact ⟨Char.ofNat 34, _, rfl, by decide⟩
  | arr xs =>
    obtain ⟨r, hr⟩ := wrap_head "[" "]" gap indent (indent ++ gap)
      (serializeElems gap (indent ++ gap) xs) (Char.ofNat 91) [] rfl
    exact ⟨_, r, by simpa [serialize] using hr, by decide⟩
  | obj kvs =>
    obtain ⟨r, hr⟩ := wrap_head "\x7b" "\x7d" gap indent (indent ++ gap)
      (serializeProps gap (indent ++ gap) kvs) (Char.ofNat 123) [] rfl
    exact ⟨_, r, by simpa [serialize] using hr, by decide⟩

theorem stringifyPretty_no_mode_prefix (v : JSON) :
    ¬ "Mode:".data <+: (stringifyPretty v).data := by
  obtain ⟨c, rest, h, hc⟩ := serialize_head "  " "" v
  intro hp
  have e : "Mode:".data = Char.ofNat 77 :: "ode:".data := rfl
  rw [stringifyPretty, h, e, List.cons_prefix_cons] at hp
  exact hc hp.1.symm

theorem trimChars_spec (cs : List Char) :
    ∃ pre post, cs = pre ++ trimChars cs ++ post ∧
      (∀ c ∈ pre, isWhiteSpace c = true) ∧ (∀ c ∈ post, isWhiteSpace c = true) ∧
      (∀ c, (trimChars cs).head? = some c → isWhiteSpace c = false) ∧
      (∀ c, (trimChars cs).getLast? = some c → isWhiteSpace c = false) := by
  have hm : cs.dropWhile isWhiteSpace =
      trimChars cs ++ ((cs.dropWhile isWhiteSpace).reverse.takeWhile isWhiteSpace).reverse := by
    have h := List.takeWhile_append_dropWhile isWhiteSpace (cs.dropWhile isWhiteSpace).reverse
    have h2 := congrArg List.reverse h
    rw [List.reverse_append, List.reverse_reverse] at h2
    exact h2.symm
  refine ⟨cs.takeWhile isWhiteSpace,
    ((cs.dropWhile isWhiteSpace).reverse.takeWhile isWhiteSpace).reverse, ?_, ?_, ?_, ?_, ?_⟩
  · rw [List.append_assoc, ← hm, List.takeWhile_append_dropWhile]
  · intro c hc
    exact List.mem_takeWhile_imp hc
  · intro c hc
    exact List.mem_takeWhile_imp (List.mem_reverse.mp hc)
  · intro c hc
    have h1 : (cs.dropWhile isWhiteSpace).head? = some c := by
      rw [hm, List.head?_append, hc]
      rfl
    have h2 := List.head?_dropWhile_not isWhiteSpace cs
    rw [h1] at h2
    simpa using h2
  · intro c hc
    have h1 : ((cs.dropWhile isWhiteSpace).reverse.dropWhile isWhiteSpace).head? = some c := by
      rw [← List.getLast?_reverse]
      exact hc
    have h2 := List.head?_dropWhile_not isWhiteSpace (cs.dropWhile isWhiteSpace).reverse
    rw [h1] at h2
    simpa using h2

theorem char_eq_of_toNat (c : Char) (k : Nat) (h : c.toNat = k) : c = Char.ofNat k := by
  rw [← h, Char.ofNat_toNat]

theorem scan_quoteChar (out : List Char) (c : Char) :
    (quoteChar c).foldl scanStep (.text out) = .text (out ++ [c]) := by
  by_cases h32 : c.toNat < 32
  · obtain ⟨k, hk⟩ : ∃ k, c.toNat = k := ⟨_, rfl⟩
    have hc := char_eq_of_toNat c k hk
    rw [hk] at h32
    subst hc
    interval_cases k <;> rfl
  · by_cases h34 : c.toNat = 34
    · have hc := char_eq_of_toNat c 34 h34
      subst hc
      rfl
    · by_cases h92 : c.toNat = 92
      · have hc := char_eq_of_toNat c 92 h92
        subst hc
        rfl
      · have e : quoteChar c = [c] := by
          unfold quoteChar
          simp only [h34, h92, show c.toNat ≠ 8 by omega, show c.toNat ≠ 12 by omega,
            show c.toNat ≠ 10 by omega, show c.toNat ≠ 13 by omega, show c.toNat ≠ 9 by omega,
            h32, if_false]
        rw [e]
        simp [scanStep, h34, h92, h32]

theorem scan_quoted (l out : List Char) :
    (l.flatMap quoteChar).foldl scanStep (.text out) = .text (out ++ l) := by
  induction l generalizing out with
  | nil => simp
  | cons c rest ih =>
    rw [List.flatMap_cons, List.foldl_append, scan_quoteChar, ih]
    simp

/-- Reading back the quoted form of a string gives the string. -/
theorem jsonStringValue_quote (s : String) : jsonStringValue (quote s) = some s := by
  simp [jsonStringValue, quote, List.foldl_append, scan_quoted, scanStep]

/-! ## Failure handling (C3) -/

/-- C3: when `await postSolve(q)` fails with message `m` (rejected fetch,
body that is not JSON), the handler ends normally (nothing propagates) with
the result text exactly `"Error: " ++ m` and the panel visible; the same
holds for every exception thrown inside the `try` block; a rejection with
message `timeout` renders `Error: timeout`. -/
theorem failure_rendered_locally (host : Host) (ui : UIState) :
    (∀ m, submitSettle host (.failed m) ui =
        .normal { ui with resultText := "Error: " ++ m, resultHidden := false,
                          solveDisabled := false, solveLabel := "Solve" }) ∧
    (∀ o m ui2, tryBody host o ui = .thrown m ui2 →
        submitSettle host o ui =
          .normal { ui2 with resultText := "Error: " ++ m, resultHidden := false,
                             solveDisabled := false, solveLabel := "Solve" }) ∧
    (submitSettle host (.failed "timeout") ui).state.resultText = "Error: timeout" ∧
    (submitSettle host (.failed "timeout") ui).state.resultHidden = false :=
  ⟨fun m => submitSettle_failed host m ui,
   fun o m ui2 h => submitSettle_of_thrown host o ui ui2 m h,
   by rw [submitSettle_failed]; rfl,
   by rw [submitSettle_failed]; rfl⟩

/-! ## Empty query (C4) -/

/-- C4: when the field is empty or holds only white space, the Solve
handler raises the alert and nothing else: no request is issued, the handler
is not suspended, and the page state (panel visibility, result text, field,
button flag and label) is the one before the call. -/
theorem submit_blank_query_no_effect (ui : UIState)
    (h : ∀ c ∈ ui.query.data, isWhiteSpace c = true) :
    submitStart ui =
        { ui := ui, effects := [.alert "Please type a math problem"], pending := none } ∧
      ∀ req, Effect.fetch req ∉ (submitStart ui).effects := by
  have ht : trim ui.query = "" := trim_of_all_whiteSpace ui.query h
  simp [submitStart, ht]

theorem submit_blank_query_witness :
    (∀ c ∈ blankPage.query.data, isWhiteSpace c = true) ∧
      submitStart blankPage =
        { ui := blankPage, effects := [.alert "Please type a math problem"], pending := none } ∧
      ∀ req, Effect.fetch req ∉ (submitStart blankPage).effects :=
  ⟨by decide, submit_blank_query_no_effect blankPage (by decide)⟩

/-! ## The request (C5) -/

/-- C5: when the trimmed field `q` is not empty, the Solve handler raises
exactly one effect, a `fetch` of `/api/solve` with method `POST`, the single
header `Content-Type: application/json` and the body `JSON.stringify` of the
object with the one property `query` holding `q`, and is suspended with `q`
in flight.  The body is the text `{"query":` followed by a string literal
and `}`, and that literal read back by the JSON string grammar is `q`.
The text `q` is the field without its leading and trailing white space: the
field is `pre ++ q ++ post` with `pre` and `post` all white space, and `q`
neither starts nor ends with white space. -/
theorem submit_issues_one_post (ui : UIState) (h : trim ui.query ≠ "") :
    (submitStart ui).effects =
        [.fetch { url := "/api/solve", method := "POST",
                  headers := [("Content-Type", "application/json")],
                  body := stringify (.obj [("query", .str (trim ui.query))]) }] ∧
      stringify (.obj [("query", .str (trim ui.query))]) =
        "\x7b\"query\":" ++ quote (trim ui.query) ++ "\x7d" ∧
      jsonStringValue (quote (trim ui.query)) = some (trim ui.query) ∧
      (∃ pre post, ui.query.data = pre ++ (trim ui.query).data ++ post ∧
        (∀ c ∈ pre, isWhiteSpace c = true) ∧ (∀ c ∈ post, isWhiteSpace c = true) ∧
        (∀ c, (trim ui.query).data.head? = some c → isWhiteSpace c = false) ∧
        (∀ c, (trim ui.query).data.getLast? = some c → isWhiteSpace c = false)) ∧
      (submitStart ui).pending = some (trim ui.query) := by
  refine ⟨?_, stringify_query _, jsonStringValue_quote _, trimChars_spec ui.query.data, ?_⟩
    <;> simp [submitStart, h, postSolveRequest]

theorem submit_issues_one_post_witness :
    trim quotedPage.query ≠ "" ∧
      (submitStart quotedPage).effects =
        [.fetch { url := "/api/solve", method := "POST",
                  headers := [("Content-Type", "application/json")],
                  body := "\x7b\"query\":\"say \\\"a\\\\b\\\"\"\x7d" }] ∧
      jsonStringValue (quote (trim quotedPage.query)) = some "say \"a\\b\"" ∧
      trim samplePage.query ≠ "" ∧
      (submitStart samplePage).effects =
        [.fetch { url := "/api/solve", method := "POST",
                  headers := [("Content-Type", "application/json")],
                  body := "\x7b\"query\":\"2+2\"\x7d" }] ∧
      (submitStart samplePage).pending = some "2+2" :=
  ⟨by decide,
   (submit_issues_one_post quotedPage (by decide)).1.trans (by decide),
   (submit_issues_one_post quotedPage (by decide)).2.2.1.trans (by decide),
   by decide,
   (submit_issues_one_post samplePage (by decide)).1.trans (by decide),
   (submit_issues_one_post samplePage (by decide)).2.2.2.2.trans (by decide)⟩

/-! ## The button while a request is in flight (C6) -/

/-- C6: for a query whose trimmed form is not empty, the Solve handler
leaves the button disabled with the working label when it is suspended, the
button stays so through any number `n` of Clear activations while the request
is pending, and for every outcome `o` (ok response, error response, thrown
failure) and every page state `now` found at settlement the handler ends
normally with the button enabled and labelled `Solve`. -/
theorem submit_button_locked_until_settled (host : Host) (ui : UIState) (n : Nat)
    (o : Outcome) (now : UIState) (h : trim ui.query ≠ "") :
    (submitStart ui).pending = some (trim ui.query) ∧
      (submitStart ui).ui.solveDisabled = true ∧
      (submitStart ui).ui.solveLabel = "Solving..." ∧
      ((fun s => (clear s).ui)^[n] (submitStart ui).ui).solveDisabled = true ∧
      ((fun s => (clear s).ui)^[n] (submitStart ui).ui).solveLabel = "Solving..." ∧
      ∃ done, submitSettle host o now = .normal done ∧
        done.solveDisabled = false ∧ done.solveLabel = "Solve" := by
  have hs : (submitStart ui).ui = { ui with solveDisabled := true, solveLabel := "Solving..." } := by
    simp [submitStart, h]
  have hi := clear_iterate_button n (submitStart ui).ui
  obtain ⟨t, ht⟩ := submitSettle_normal host o now
  refine ⟨by simp [submitStart, h], by rw [hs], by rw [hs], ?_, ?_, _, ht, rfl, rfl⟩
  · rw [hi.1, hs]
  · rw [hi.2, hs]

theorem submit_button_locked_witness :
    trim samplePage.query ≠ "" ∧
      ((submitStart samplePage).pending = some (trim samplePage.query) ∧
      (submitStart samplePage).ui.solveDisabled = true ∧
      (submitStart samplePage).ui.solveLabel = "Solving..." ∧
      ((fun s => (clear s).ui)^[2] (submitStart samplePage).ui).solveDisabled = true ∧
      ((fun s => (clear s).ui)^[2] (submitStart samplePage).ui).solveLabel = "Solving..." ∧
      ∃ done, submitSettle sampleHost (.parsed .null) (clear (submitStart samplePage).ui).ui
          = .normal done ∧
        done.solveDisabled = false ∧ done.solveLabel = "Solve") :=
  ⟨by decide,
   submit_button_locked_until_settled sampleHost samplePage 2 (.parsed .null)
     (clear (submitStart samplePage).ui).ui (by decide)⟩

/-! ## The Clear handler (C7) -/

/-- C7: from every page state the Clear handler leaves the field empty, the
panel hidden and the result text empty, raises no effect (no request), is
never suspended, keeps the button flag and label, and running it a second
time changes nothing. -/
theorem clear_resets_panel (ui : UIState) :
    (clear ui).ui =
        { query := "", solveDisabled := ui.solveDisabled, solveLabel := ui.solveLabel,
          resultHidden := true, resultText := "" } ∧
      (clear ui).effects = [] ∧
      (clear ui).pending = none ∧
      clear (clear ui).ui = clear ui :=
  ⟨rfl, rfl, rfl, rfl⟩

/-! ## Clear while a request is pending (C10) -/

/-- C10: for a query whose trimmed form is not empty and every response
`res`: Solve starts, Clear runs while the request is pending, the request
settles with `res`.  The handler then ends normally on a page with the panel
visible, the text the handler renders for `res` (the same text it writes when
no Clear ran, and from any other page state `other`), the field still empty,
and the button enabled with label `Solve`. -/
theorem clear_does_not_cancel_pending (host : Host) (ui other : UIState) (res : JSON)
    (h : trim ui.query ≠ "") :
    ∃ t, submitSettle host (.parsed res) (clear (submitStart ui).ui).ui =
        .normal { query := "", solveDisabled := false, solveLabel := "Solve",
                  resultHidden := false, resultText := t } ∧
      (submitSettle host (.parsed res) (submitStart ui).ui).state.resultText = t ∧
      (submitSettle host (.parsed res) other).state.resultText = t ∧
      ((clear (submitStart ui).ui).ui.resultText = "" ∧
        (clear (submitStart ui).ui).ui.resultHidden = true ∧
        (clear (submitStart ui).ui).ui.solveDisabled = true) := by
  have hs : (submitStart ui).ui = { ui with solveDisabled := true, solveLabel := "Solving..." } := by
    simp [submitStart, h]
  have key : ∀ a b : UIState, ∃ t,
      submitSettle host (.parsed res) a =
        .normal { a with resultText := t, resultHidden := false,
                         solveDisabled := false, solveLabel := "Solve" } ∧
      submitSettle host (.parsed res) b =
        .normal { b with resultText := t, resultHidden := false,
                         solveDisabled := false, solveLabel := "Solve" } := by
    intro a b
    rcases tryBody_cases host (.parsed res) a with ⟨m, ha⟩ | ⟨t, ha⟩
    · have hb : tryBody host (.parsed res) b = .thrown m b := by
        simp only [tryBody] at ha ⊢
        split at ha
        · simp only [Completion.thrown.injEq] at ha
          simp [ha.1]
        · split at ha
          · simp only [Completion.thrown.injEq] at ha
            simp [ha.1]
          · simp at ha
      exact ⟨_, submitSettle_of_thrown host _ a a m ha, submitSettle_of_thrown host _ b b m hb⟩
    · have hb : tryBody host (.parsed res) b =
          .normal { b with resultText := t, resultHidden := false } := by
        simp only [tryBody] at ha ⊢
        split at ha
        · simp at ha
        · split at ha
          · simp at ha
          · simp only [Completion.normal.injEq, UIState.mk.injEq] at ha
            simp [ha.2.2.2.2]
      exact ⟨t, submitSettle_of_normal host _ a _ ha, submitSettle_of_normal host _ b _ hb⟩
  obtain ⟨t, h1, h2⟩ := key (clear (submitStart ui).ui).ui (submitStart ui).ui
  obtain ⟨t2, h3, h4⟩ := key (clear (submitStart ui).ui).ui other
  have e : t2 = t := by
    rw [h1] at h3
    simp only [Completion.normal.injEq, UIState.mk.injEq] at h3
    exact h3.2.2.2.2.symm
  subst e
  refine ⟨t2, ?_, ?_, ?_, rfl, rfl, ?_⟩
  · rw [h1]; rfl
  · rw [h2]; rfl
  · rw [h4]; rfl
  · rw [hs]; rfl

theorem clear_does_not_cancel_witness :
    trim samplePage.query ≠ "" ∧
      ∃ t, submitSettle sampleHost (.parsed (.obj [("ok", .bool true), ("result", .num four)]))
          (clear (submitStart samplePage).ui).ui =
        .normal { query := "", solveDisabled := false, solveLabel := "Solve",
                  resultHidden := false, resultText := t } ∧
      (submitSettle sampleHost (.parsed (.obj [("ok", .bool true), ("result", .num four)]))
          (submitStart samplePage).ui).state.resultText = t ∧
      (submitSettle sampleHost (.parsed (.obj [("ok", .bool true), ("result", .num four)]))
          blankPage).state.resultText = t ∧
      ((clear (submitStart samplePage).ui).ui.resultText = "" ∧
        (clear (submitStart samplePage).ui).ui.resultHidden = true ∧
        (clear (submitStart samplePage).ui).ui.solveDisabled = true) :=
  ⟨by decide,
   clear_does_not_cancel_pending sampleHost samplePage blankPage
     (.obj [("ok", .bool true), ("result", .num four)]) (by decide)⟩

/-- The text written on the `res.ok` branch when the mode line is `h`. -/
theorem ok_branch_text (host : Host) (ui : UIState) (res : JSON) (h : String)
    (hok : truthyOpt (field res "ok") = true) (hmode : modeLine (field res "mode") = some h) :
    submitSettle host (.parsed res) ui =
      .normal { ui with resultText := h ++ payloadText res (field res "result"),
                        resultHidden := false, solveDisabled := false, solveLabel := "Solve" } := by
  have hb := tryBody_ok_branch host ui res hok
  simp only [okText, hmode, Option.map_some'] at hb
  rw [submitSettle_of_normal host _ ui _ hb]

/-- The text written on the other branch when the conversion gives `t`. -/
theorem error_branch_text (host : Host) (ui : UIState) (res : JSON) (t : String)
    (hnn : res ≠ .null) (hok : truthyOpt (field res "ok") = false)
    (ht : errorText res = some t) :
    submitSettle host (.parsed res) ui =
      .normal { ui with resultText := t, resultHidden := false,
                        solveDisabled := false, solveLabel := "Solve" } := by
  have hb := tryBody_error_branch host ui res hnn hok
  simp only [ht] at hb
  rw [submitSettle_of_normal host _ ui _ hb]

/-! ## Payload of an ok response (C1) -/

/-- C1 (amended): for a response `res` with truthy `ok` whose mode line is
`h` (empty, or the converted mode), the result text is `h` followed by the
two-space pretty-printed `res.result` when `res.result` is truthy, and `h`
followed by the pretty-printed whole `res` when `res.result` is falsy or
absent. -/
theorem ok_payload_by_truthiness (host : Host) (ui : UIState) (res : JSON) (h : String)
    (hok : truthyOpt (field res "ok") = true) (hmode : modeLine (field res "mode") = some h) :
    (∀ r, field res "result" = some r → truthy r = true →
        (submitSettle host (.parsed res) ui).state.resultText = h ++ stringifyPretty r) ∧
      (truthyOpt (field res "result") = false →
        (submitSettle host (.parsed res) ui).state.resultText = h ++ stringifyPretty res) := by
  rw [ok_branch_text host ui res h hok hmode]
  constructor
  · intro r hr ht
    simp [Completion.state, payloadText, hr, ht]
  · intro hf
    cases hr : field res "result" with
    | none => simp [Completion.state, payloadText]
    | some r =>
      have : truthy r = false := by simpa [hr, truthyOpt] using hf
      simp [Completion.state, payloadText, this]

theorem ok_payload_witness :
    truthyOpt (field algebraResponse "ok") = true ∧
      modeLine (field algebraResponse "mode") = some "Mode: algebra\n\n" ∧
      (submitSettle sampleHost (.parsed algebraResponse) samplePage).state.resultText =
        "Mode: algebra\n\n" ++ stringifyPretty (.obj [("x", .num two)]) ∧
      stringifyPretty (.obj [("x", .num two)]) = "\x7b\n  \"x\": 2\n\x7d" ∧
      truthyOpt (field largeModeResponse "ok") = true ∧
      modeLine (field largeModeResponse "mode") = some "Mode: 1e+21\n\n" ∧
      (submitSettle sampleHost (.parsed largeModeResponse) samplePage).state.resultText =
        "Mode: 1e+21\n\n" ++ stringifyPretty (.num quarter) ∧
      stringifyPretty (.num quarter) = "0.25" :=
  ⟨by decide, by decide,
   (ok_payload_by_truthiness sampleHost samplePage algebraResponse "Mode: algebra\n\n"
      (by decide) (by decide)).1 (.obj [("x", .num two)]) rfl (by decide),
   by decide, by decide, by decide,
   (ok_payload_by_truthiness sampleHost samplePage largeModeResponse "Mode: 1e+21\n\n"
      (by decide) (by decide)).1 (.num quarter) rfl (by decide),
   by decide⟩

/-- C1 fails as stated: `{"ok": true, "result": 0}` has a `result` field,
yet the text is the pretty-printed whole response and does not end with the
pretty-printed `0`. -/
theorem falsy_result_dumps_whole_response :
    truthyOpt (field zeroResponse "ok") = true ∧
      field zeroResponse "result" = some (.num (.zero false)) ∧
      (submitSettle sampleHost (.parsed zeroResponse) samplePage).state.resultText =
        stringifyPretty zeroResponse ∧
      ¬ (stringifyPretty (.num (.zero false))).data <:+
        (submitSettle sampleHost (.parsed zeroResponse) samplePage).state.resultText.data :=
  ⟨by decide, rfl, by decide, by decide⟩

/-! ## Text of a failed response (C2) -/

/-- C2 (amended): for a response `res` other than `null` with falsy `ok`,
the result text is `res.error` converted to a string when `res.error` is
truthy (the string itself when it is a string), and otherwise, with
`res.error` falsy or absent, a JSON serialization of the whole response
(with some indentation unit `gap`, which the statement leaves open). -/
theorem failed_response_text (host : Host) (ui : UIState) (res : JSON)
    (hnn : res ≠ .null) (hok : truthyOpt (field res "ok") = false) :
    (∀ e s, field res "error" = some e → truthy e = true → toStr e = some s →
        (submitSettle host (.parsed res) ui).state.resultText = s) ∧
      (∀ s, field res "error" = some (.str s) → s ≠ "" →
        (submitSettle host (.parsed res) ui).state.resultText = s) ∧
      (truthyOpt (field res "error") = false →
        ∃ gap, (submitSettle host (.parsed res) ui).state.resultText = serialize gap "" res) := by
  have main : ∀ e s, field res "error" = some e → truthy e = true → toStr e = some s →
      (submitSettle host (.parsed res) ui).state.resultText = s := by
    intro e s he ht hs
    rw [error_branch_text host ui res s hnn hok (by simp [errorText, he, ht, hs])]
    rfl
  refine ⟨main, ?_, ?_⟩
  · intro s he hs
    exact main (.str s) s he (by simp [truthy, hs]) (by simp [toStr])
  · intro hf
    have ht : errorText res = some (stringify res) := by
      cases he : field res "error" with
      | none => simp [errorText, he]
      | some e =>
        have : truthy e = false := by simpa [he, truthyOpt] using hf
        simp [errorText, he, this]
    refine ⟨"", ?_⟩
    rw [error_branch_text host ui res _ hnn hok ht]
    rfl

theorem failed_response_witness :
    parseErrorResponse ≠ .null ∧ truthyOpt (field parseErrorResponse "ok") = false ∧
      (submitSettle sampleHost (.parsed parseErrorResponse) samplePage).state.resultText =
        "parse error" ∧
      bareFailureResponse ≠ .null ∧ truthyOpt (field bareFailureResponse "ok") = false ∧
      ∃ gap, (submitSettle sampleHost (.parsed bareFailureResponse) samplePage).state.resultText
        = serialize gap "" bareFailureResponse :=
  ⟨by simp [parseErrorResponse], by decide,
   (failed_response_text sampleHost samplePage parseErrorResponse
      (by simp [parseErrorResponse]) (by decide)).2.1 "parse error" rfl (by decide),
   by simp [bareFailureResponse], by decide,
   (failed_response_text sampleHost samplePage bareFailureResponse
      (by simp [bareFailureResponse]) (by decide)).2.2 (by decide)⟩

/-- C2 fails as stated: `{"ok": false, "error": ""}` has an `error` field,
yet the text is not that field (the empty string) but a dump of the whole
response. -/
theorem empty_error_not_rendered :
    truthyOpt (field emptyErrorResponse "ok") = false ∧
      field emptyErrorResponse "error" = some (.str "") ∧
      (submitSettle sampleHost (.parsed emptyErrorResponse) samplePage).state.resultText ≠ "" ∧
      (submitSettle sampleHost (.parsed emptyErrorResponse) samplePage).state.resultText =
        serialize "" "" emptyErrorResponse :=
  ⟨by decide, rfl, by decide, by decide⟩

/-- The dump of the `else` branch (`JSON.stringify(res)`) is unindented,
where the dump of the whole response in the `res.ok` branch
(`JSON.stringify(res, null, 2)`) is indented: `{"ok": false}` is rendered on
one line. -/
theorem bare_failure_dump_unindented :
    (submitSettle sampleHost (.parsed bareFailureResponse) samplePage).state.resultText =
        "\x7b\"ok\":false\x7d" ∧
      stringifyPretty bareFailureResponse = "\x7b\n  \"ok\": false\n\x7d" ∧
      (submitSettle sampleHost (.parsed (.obj [("ok", .bool true)])) samplePage).state.resultText =
        "\x7b\n  \"ok\": true\n\x7d" :=
  ⟨by decide, by decide, by decide⟩

/-! ## The mode line (C8) -/

/-- C8 (amended): for a response `res` with truthy `ok`, the result text
is `Mode: `, the converted `res.mode` and a blank line, followed by the
payload, when `res.mode` is truthy (and converts to the string `s`); when
`res.mode` is falsy or absent the text is exactly the payload and does not
start with `Mode:`. -/
theorem mode_line_by_truthiness (host : Host) (ui : UIState) (res : JSON)
    (hok : truthyOpt (field res "ok") = true) :
    (∀ m s, field res "mode" = some m → truthy m = true → toStr m = some s →
        (submitSettle host (.parsed res) ui).state.resultText =
          "Mode: " ++ s ++ "\n\n" ++ payloadText res (field res "result")) ∧
      (truthyOpt (field res "mode") = false →
        (submitSettle host (.parsed res) ui).state.resultText =
            payloadText res (field res "result") ∧
          ¬ "Mode:".data <+: (submitSettle host (.parsed res) ui).state.resultText.data) := by
  constructor
  · intro m s hm ht hs
    rw [ok_branch_text host ui res ("Mode: " ++ s ++ "\n\n") hok (by simp [modeLine, hm, ht, hs])]
    rfl
  · intro hf
    have hl : modeLine (field res "mode") = some "" := by
      cases hm : field res "mode" with
      | none => simp [modeLine]
      | some m =>
        have : truthy m = false := by simpa [hm, truthyOpt] using hf
        simp [modeLine, this]
    rw [ok_branch_text host ui res "" hok hl]
    have e : ("" : String) ++ payloadText res (field res "result")
        = payloadText res (field res "result") := by simp
    show "" ++ payloadText res (field res "result") = payloadText res (field res "result") ∧
      ¬ "Mode:".data <+: ("" ++ payloadText res (field res "result")).data
    rw [e]
    refine ⟨rfl, ?_⟩
    unfold payloadText
    split
    · split <;> exact stringifyPretty_no_mode_prefix _
    · exact stringifyPretty_no_mode_prefix _

theorem mode_line_witness :
    truthyOpt (field plainResponse "ok") = true ∧
      (submitSettle sampleHost (.parsed plainResponse) samplePage).state.resultText =
        payloadText plainResponse (field plainResponse "result") ∧
      ¬ "Mode:".data <+:
        (submitSettle sampleHost (.parsed plainResponse) samplePage).state.resultText.data ∧
      payloadText plainResponse (field plainResponse "result") = "5" ∧
      truthyOpt (field largeModeResponse "ok") = true ∧
      (submitSettle sampleHost (.parsed largeModeResponse) samplePage).state.resultText =
        "Mode: " ++ "1e+21" ++ "\n\n" ++
          payloadText largeModeResponse (field largeModeResponse "result") ∧
      payloadText largeModeResponse (field largeModeResponse "result") = "0.25" :=
  ⟨by decide,
   ((mode_line_by_truthiness sampleHost samplePage plainResponse (by decide)).2 (by decide)).1,
   ((mode_line_by_truthiness sampleHost samplePage plainResponse (by decide)).2 (by decide)).2,
   by decide, by decide,
   (mode_line_by_truthiness sampleHost samplePage largeModeResponse (by decide)).1
     (.num sextillion) "1e+21" rfl (by decide) (by decide),
   by decide⟩

/-- C8 fails as stated: `{"ok": true, "mode": "", "result": 5}` has a `mode`
field, yet the text is the bare payload `5` with no mode line. -/
theorem empty_mode_has_no_mode_line :
    truthyOpt (field emptyModeResponse "ok") = true ∧
      field emptyModeResponse "mode" = some (.str "") ∧
      (submitSettle sampleHost (.parsed emptyModeResponse) samplePage).state.resultText = "5" ∧
      ¬ ("Mode: " ++ "" ++ "\n\n").data <+:
        (submitSettle sampleHost (.parsed emptyModeResponse) samplePage).state.resultText.data :=
  ⟨by decide, rfl, by decide, by decide⟩

/-! ## Responses of any shape (C9) -/

/-- C9 (amended): for every response `res` other than `null`, provided the
one field its branch converts to a string has a conversion (a truthy
`res.mode` when `res.ok` is truthy, a truthy `res.error` when `res.ok` is
falsy), the `try` block ends normally (the `catch` block does not run),
writes a text and shows the panel; and when `res` has no `ok` and no `error`
field (in particular when it has none of `ok`, `mode`, `result`, `error`)
the text is the dump `JSON.stringify(res)` of the whole value. -/
theorem non_null_response_rendered (host : Host) (ui : UIState) (res : JSON)
    (hnn : res ≠ .null)
    (hmode : truthyOpt (field res "ok") = true →
      ∀ m, field res "mode" = some m → truthy m = true → (toStr m).isSome = true)
    (herr : truthyOpt (field res "ok") = false →
      ∀ e, field res "error" = some e → truthy e = true → (toStr e).isSome = true) :
    (∃ t, tryBody host (.parsed res) ui =
          .normal { ui with resultText := t, resultHidden := false } ∧
        submitSettle host (.parsed res) ui =
          .normal { ui with resultText := t, resultHidden := false,
                            solveDisabled := false, solveLabel := "Solve" }) ∧
      (field res "ok" = none → field res "error" = none →
        submitSettle host (.parsed res) ui =
          .normal { ui with resultText := stringify res, resultHidden := false,
                            solveDisabled := false, solveLabel := "Solve" }) := by
  constructor
  · cases hok : truthyOpt (field res "ok") with
    | true =>
      have hl : ∃ h, modeLine (field res "mode") = some h := by
        cases hm : field res "mode" with
        | none => exact ⟨"", by simp [modeLine]⟩
        | some m =>
          cases ht : truthy m with
          | false => exact ⟨"", by simp [modeLine, ht]⟩
          | true =>
            obtain ⟨s, hs⟩ := Option.isSome_iff_exists.mp (hmode hok m hm ht)
            exact ⟨"Mode: " ++ s ++ "\n\n", by simp [modeLine, ht, hs]⟩
      obtain ⟨h, hh⟩ := hl
      have hb := tryBody_ok_branch host ui res hok
      simp only [okText, hh, Option.map_some'] at hb
      exact ⟨_, hb, ok_branch_text host ui res h hok hh⟩
    | false =>
      have hl : ∃ t, errorText res = some t := by
        cases he : field res "error" with
        | none => exact ⟨stringify res, by simp [errorText, he]⟩
        | some e =>
          cases ht : truthy e with
          | false => exact ⟨stringify res, by simp [errorText, he, ht]⟩
          | true =>
            obtain ⟨s, hs⟩ := Option.isSome_iff_exists.mp (herr hok e he ht)
            exact ⟨s, by simp [errorText, he, ht, hs]⟩
      obtain ⟨t, ht⟩ := hl
      have hb := tryBody_error_branch host ui res hnn hok
      simp only [ht] at hb
      exact ⟨t, hb, error_branch_text host ui res t hnn hok ht⟩
  · intro h1 h2
    exact error_branch_text host ui res _ hnn (by simp [h1, truthyOpt])
      (by simp [errorText, h2])

theorem non_null_response_witness :
    listResponse ≠ .null ∧
      (∃ t, tryBody sampleHost (.parsed listResponse) samplePage =
          .normal { samplePage with resultText := t, resultHidden := false } ∧
        submitSettle sampleHost (.parsed listResponse) samplePage =
          .normal { samplePage with resultText := t, resultHidden := false,
                                    solveDisabled := false, solveLabel := "Solve" }) ∧
      submitSettle sampleHost (.parsed listResponse) samplePage =
        .normal { samplePage with resultText := "[1,\"a\"]", resultHidden := false,
                                  solveDisabled := false, solveLabel := "Solve" } ∧
      unreadErrorResponse ≠ .null ∧
      (∃ t, tryBody sampleHost (.parsed unreadErrorResponse) samplePage =
          .normal { samplePage with resultText := t, resultHidden := false } ∧
        submitSettle sampleHost (.parsed unreadErrorResponse) samplePage =
          .normal { samplePage with resultText := t, resultHidden := false,
                                    solveDisabled := false, solveLabel := "Solve" }) ∧
      submitSettle sampleHost (.parsed (.num sextillion)) samplePage =
        .normal { samplePage with resultText := "1e+21", resultHidden := false,
                                  solveDisabled := false, solveLabel := "Solve" } :=
  ⟨by simp [listResponse],
   (non_null_response_rendered sampleHost samplePage listResponse (by simp [listResponse])
      (fun h => by simp [listResponse, field, getProp, truthyOpt] at h)
      (fun _ e h => by simp [listResponse, field, getProp] at h)).1,
   (non_null_response_rendered sampleHost samplePage listResponse (by simp [listResponse])
      (fun h => by simp [listResponse, field, getProp, truthyOpt] at h)
      (fun _ e h => by simp [listResponse, field, getProp] at h)).2 rfl rfl,
   by simp [unreadErrorResponse],
   (non_null_response_rendered sampleHost samplePage unreadErrorResponse
      (by simp [unreadErrorResponse])
      (fun _ m h => by simp [unreadErrorResponse, field, getProp, lookup] at h)
      (fun h => by simp [unreadErrorResponse, field, getProp, lookup, truthyOpt, truthy] at h)).1,
   (non_null_response_rendered sampleHost samplePage (.num sextillion) (by simp)
      (fun h => by simp [field, getProp, truthyOpt] at h)
      (fun _ e h => by simp [field, getProp] at h)).2 rfl rfl⟩

/-- C9 fails as stated: for the response `null` the read of `res.ok`
throws, so the failure path runs and the text is an `Error: ` message, not
the dump `null`; likewise a truthy `mode` that owns a `toString` property
makes the template literal throw. -/
theorem null_response_takes_failure_path :
    tryBody sampleHost (.parsed .null) samplePage = .thrown "res is null" samplePage ∧
      (submitSettle sampleHost (.parsed .null) samplePage).state.resultText
        = "Error: res is null" ∧
      stringify .null = "null" ∧
      tryBody sampleHost (.parsed opaqueModeResponse) samplePage
        = .thrown "Cannot convert object to primitive value" samplePage ∧
      (submitSettle sampleHost (.parsed opaqueModeResponse) samplePage).state.resultText
        = "Error: Cannot convert object to primitive value" := by
  decide

end MathSolver
